import Mathlib

/-
Shallow embedding of the PDF segmentation and naming pipeline of
src/app.py (repository processador-arquivos).

Conventions of the embedding:
  - a PDF page is an abstract identifier (Nat); a parsed document is its
    list of pages in order; the bytes of a produced fragment are modelled
    by the fragment's list of pages;
  - a source file that PyPDF2.PdfReader cannot open is the input `none`;
  - Python None is `Option.none`; a date string is `Option String`;
  - the external Gemini extractor is a parameter `ext : List Nat → DadosASO`
    giving, per produced fragment, the dictionary the code reads its two
    fields from (after the .get calls of lines 129-130);
  - CPython library behaviour (strptime, strftime, int, str.split) is
    modelled explicitly below, restricted to ASCII input, following the
    reference implementation (_strptime.py regexes, glibc strftime).
-/

/-! ### Character and string helpers -/

/-- Numeric value of an ASCII digit character. -/
def dval (c : Char) : Nat := c.toNat - '0'.toNat

/-- ASCII whitespace, the model of Python's whitespace classes here. -/
def isPySpace (c : Char) : Bool :=
  c = ' ' || c = '\t' || c = '\n' || c = '\r' || c = '\x0b' || c = '\x0c'

/-- Drop whitespace on both ends (model of str.strip / int()'s stripping). -/
def tiraEspacosBordas (cs : List Char) : List Char :=
  ((cs.dropWhile (fun c => isPySpace c)).reverse.dropWhile (fun c => isPySpace c)).reverse

/-! ### Model of datetime.strptime for the formats of formatar_data

CPython's _strptime compiles a format to a regex and requires a full match:
%d elaborates to (3[01]|[12]\x5cd|0[1-9]|[1-9]), %m to (1[0-2]|0[1-9]|[1-9]),
%Y to exactly four digits, %y to exactly two digits (then years <= 68 get
+2000, the rest +1900), and a '-' inside a directive such as %-d raises
ValueError for the format itself.  After the regex match the values are fed
to datetime.date, which validates 1 <= year <= 9999 and the day against the
month length. -/

/-- One strptime directive of the formats used by formatar_data. -/
inductive Diretiva
  | dia
  | mes
  | ano4
  | ano2
  | lit (c : Char)
  | ruim

/-- The (day, month, year) being assembled; defaults as in _strptime. -/
structure TempoParc where
  d : Nat := 1
  m : Nat := 1
  y : Nat := 1900

/-- Regex matching of a directive list against the character list, with the
backtracking Python's re performs between the two-digit and one-digit
alternatives of %d and %m.  Requires the whole input to be consumed. -/
def matchDirs : List Diretiva → List Char → TempoParc → Option TempoParc
  | [], [], tm => some tm
  | [], _ :: _, _ => none
  | .ruim :: _, _, _ => none
  | .lit _ :: _, [], _ => none
  | .lit c :: ds, c2 :: cs, tm => if c2 = c then matchDirs ds cs tm else none
  | .dia :: _, [], _ => none
  | .dia :: ds, c1 :: resto, tm =>
      let dois : Option TempoParc :=
        match resto with
        | c2 :: cs =>
            if c1.isDigit && c2.isDigit && decide (1 ≤ 10 * dval c1 + dval c2)
                && decide (10 * dval c1 + dval c2 ≤ 31) then
              matchDirs ds cs { tm with d := 10 * dval c1 + dval c2 }
            else none
        | [] => none
      match dois with
      | some r => some r
      | none =>
          if c1.isDigit && decide (1 ≤ dval c1) then
            matchDirs ds resto { tm with d := dval c1 }
          else none
  | .mes :: _, [], _ => none
  | .mes :: ds, c1 :: resto, tm =>
      let dois : Option TempoParc :=
        match resto with
        | c2 :: cs =>
            if c1.isDigit && c2.isDigit && decide (1 ≤ 10 * dval c1 + dval c2)
                && decide (10 * dval c1 + dval c2 ≤ 12) then
              matchDirs ds cs { tm with m := 10 * dval c1 + dval c2 }
            else none
        | [] => none
      match dois with
      | some r => some r
      | none =>
          if c1.isDigit && decide (1 ≤ dval c1) then
            matchDirs ds resto { tm with m := dval c1 }
          else none
  | .ano4 :: ds, c1 :: c2 :: c3 :: c4 :: cs, tm =>
      if c1.isDigit && c2.isDigit && c3.isDigit && c4.isDigit then
        matchDirs ds cs
          { tm with y := 1000 * dval c1 + 100 * dval c2 + 10 * dval c3 + dval c4 }
      else none
  | .ano4 :: _, _, _ => none
  | .ano2 :: ds, c1 :: c2 :: cs, tm =>
      if c1.isDigit && c2.isDigit then
        let v := 10 * dval c1 + dval c2
        matchDirs ds cs { tm with y := if v ≤ 68 then v + 2000 else v + 1900 }
      else none
  | .ano2 :: _, _, _ => none

/-- Gregorian leap year, as datetime uses. -/
def anoBissexto (y : Nat) : Bool := (y % 4 == 0 && y % 100 != 0) || y % 400 == 0

/-- Length of a month, as datetime uses. -/
def diasNoMes (y m : Nat) : Nat :=
  if m = 2 then (if anoBissexto y then 29 else 28)
  else if m = 4 || m = 6 || m = 9 || m = 11 then 30
  else 31

/-- strptime on one format: regex match, then the datetime.date validation
(year in 1..9999, day within the month; the regex already bounds the month). -/
def strptimeModelo (fmt : List Diretiva) (cs : List Char) : Option TempoParc :=
  match matchDirs fmt cs {} with
  | some tm =>
      if decide (1 ≤ tm.y) && decide (tm.y ≤ 9999) && decide (tm.d ≤ diasNoMes tm.y tm.m)
      then some tm else none
  | none => none

/-- The format list of src/app.py:68-72.  %-d/%-m are `ruim`: _strptime raises
ValueError for the directive, which line 89 catches like any parse failure. -/
def formatos_possiveis : List (List Diretiva) :=
  [ [.dia, .lit '/', .mes, .lit '/', .ano4]
  , [.dia, .lit '-', .mes, .lit '-', .ano4]
  , [.ano4, .lit '-', .mes, .lit '-', .dia]
  , [.dia, .lit '/', .mes, .lit '/', .ano2]
  , [.dia, .lit '-', .mes, .lit '-', .ano2]
  , [.ruim]
  , [.ruim] ]

/-- First format that parses wins (the loop of lines 74-90). -/
def tentaFormatos : List (List Diretiva) → List Char → Option TempoParc
  | [], _ => none
  | f :: fs, cs =>
      match strptimeModelo f cs with
      | some tm => some tm
      | none => tentaFormatos fs cs

/-- Line 78: data_str.replace('-', '/').  The replacement runs inside the loop
but before the first strptime attempt, so every attempt sees the replaced
string; replacing once up front is equivalent. -/
def trocaTracoPorBarra (cs : List Char) : List Char :=
  cs.map (fun c => if c = '-' then '/' else c)

/-- strftime '%d' / '%m': two digits, zero padded (values here are <= 31). -/
def doisDigitos (n : Nat) : List Char := [Nat.digitChar (n / 10), Nat.digitChar (n % 10)]

/-- strftime '%Y' as glibc prints it: the year in decimal without zero
padding (observed: year 500 prints as 500, not 0500).  Reachable values lie
in 1..9999, rendered with up to four digits. -/
def anoDigitos (y : Nat) : List Char :=
  if y < 10 then [Nat.digitChar y]
  else if y < 100 then [Nat.digitChar (y / 10), Nat.digitChar (y % 10)]
  else if y < 1000 then
    [Nat.digitChar (y / 100), Nat.digitChar (y / 10 % 10), Nat.digitChar (y % 10)]
  else
    [Nat.digitChar (y / 1000 % 10), Nat.digitChar (y / 100 % 10),
     Nat.digitChar (y / 10 % 10), Nat.digitChar (y % 10)]

/-- Embedding of formatar_data (src/app.py:59-92).  `none` is Python None;
`if not data_str` also catches the empty string.  The variable `numeros` of
line 65 is computed by the source but never used, so it is omitted. -/
def formatar_data (dataStr : Option String) : String :=
  match dataStr with
  | none => "DDMMYYYY"
  | some s =>
      if s = "" then "DDMMYYYY"
      else
        match tentaFormatos formatos_possiveis (trocaTracoPorBarra s.data) with
        | some tm =>
            let y := if tm.y < 100 then tm.y + 2000 else tm.y
            String.mk (doisDigitos tm.d ++ doisDigitos tm.m ++ anoDigitos y)
        | none => "DDMMYYYY"

/-! ### Filename sanitizer -/

/-- The characters removed by line 96. -/
def caracteresIlegais : List Char := ['<', '>', ':', '"', '/', '\\', '|', '?', '*']

/-- re.sub(r'\s+', ' ', _): the flag records whether the previous character
was whitespace, so each maximal whitespace run becomes one space. -/
def colapsaEspacosAux : Bool → List Char → List Char
  | _, [] => []
  | emEspaco, c :: cs =>
      if isPySpace c then
        if emEspaco then colapsaEspacosAux true cs
        else ' ' :: colapsaEspacosAux true cs
      else c :: colapsaEspacosAux false cs

/-- re.sub(r'\s+', ' ', _): each maximal whitespace run becomes one space. -/
def colapsaEspacos (l : List Char) : List Char := colapsaEspacosAux false l

/-- Embedding of validar_nome_arquivo (src/app.py:94-103): remove the illegal
characters, collapse whitespace runs, strip the ends, truncate to 240
characters. -/
def validar_nome_arquivo (nome : String) : String :=
  let semIlegais := nome.data.filter (fun c => !(caracteresIlegais.contains c))
  let normalizado := tiraEspacosBordas (colapsaEspacos semIlegais)
  String.mk (normalizado.take 240)

/-! ### Model of Python int() on ASCII strings -/

/-- Digits continuing a number, with single underscores allowed between
digits (int('1_2') is 12; leading, trailing or doubled underscores fail). -/
def digitosPyAux : List Char → Nat → Option Nat
  | [], acc => some acc
  | '_' :: c :: cs, acc => if c.isDigit then digitosPyAux cs (acc * 10 + dval c) else none
  | ['_'], _ => none
  | c :: cs, acc => if c.isDigit then digitosPyAux cs (acc * 10 + dval c) else none

/-- A nonempty digit sequence with its value. -/
def digitosPy : List Char → Option Nat
  | [] => none
  | c :: cs => if c.isDigit then digitosPyAux cs (dval c) else none

/-- Model of int() on a character list: strip whitespace, optional sign,
digits. -/
def pyIntChars (cs : List Char) : Option Int :=
  match tiraEspacosBordas cs with
  | '+' :: resto => (digitosPy resto).map (fun n => (n : Int))
  | '-' :: resto => (digitosPy resto).map (fun n => -(n : Int))
  | resto => (digitosPy resto).map (fun n => (n : Int))

/-- Model of int(s) on a string. -/
def pyInt (s : String) : Option Int := pyIntChars s.data

/-- Model of str.split('-'): the pieces between the dashes, in order; the
empty string gives [''], and consecutive dashes give empty pieces. -/
def splitTraco : List Char → List (List Char)
  | [] => [[]]
  | '-' :: cs => [] :: splitTraco cs
  | c :: cs =>
      match splitTraco cs with
      | parte :: partes => (c :: parte) :: partes
      | [] => [[c]]

/-- Lines 143-144: intervalo.split('-') must give exactly two parts and both
must parse as ints, otherwise ValueError is raised and the entry skipped
(a wrong number of parts makes the unpacking raise ValueError as well). -/
def parseIntervalo (s : String) : Option (Int × Int) :=
  match splitTraco s.data with
  | [a, b] =>
      match pyIntChars a, pyIntChars b with
      | some i, some f => some (i, f)
      | _, _ => none
  | _ => none

/-! ### The external extractor and the per-unit naming of dividir_pdf -/

/-- The two fields the code reads from the extractor's response, after the
.get calls of lines 129-130: `nome` is dados.get('nome', 'INDEFINIDO'), so a
response missing the key is `some "INDEFINIDO"` and a null value is `none`;
`data` is dados.get('data') (missing key and null both `none`).  Any
exception in the external call yields {"nome": None, "data": None}
(lines 55-57), i.e. both fields `none`. -/
structure DadosASO where
  nome : Option String
  data : Option String

/-- The dictionary extrair_informacoes_gemini returns when the external call
or the JSON parse fails (src/app.py:55-57). -/
def dadosFalha : DadosASO := ⟨none, none⟩

/-- Lines 127-136 (repeated at 153-162, 176-185 and 201-210): the name of one
output unit.  `padrao` is the mode-specific positional default.  When AI
naming is active and both fields are usable, the composed "ASO ..." name is
used directly: it is NOT passed through validar_nome_arquivo.  `usarIa`
models `usar_ia and modelo`. -/
def nomeUnidade (usarIa : Bool) (ext : List Nat → DadosASO) (unidade : List Nat)
    (padrao : String) : String :=
  if usarIa then
    let dados := ext unidade
    let dataExame := formatar_data dados.data
    match dados.nome with
    | some nomeFuncionario =>
        if nomeFuncionario != "INDEFINIDO" && dataExame != "DDMMYYYY" then
          "ASO " ++ dataExame ++ " " ++ nomeFuncionario ++ ".pdf"
        else padrao
    | none => padrao
  else padrao

/-! ### The four segmentation loops of dividir_pdf -/

/-- Lines 114-138, mode "paginas_fixas": the loop
`for i in range(0, total_paginas, paginas_por_arquivo)`.  For step n >= 1,
range(0, total, n) is the list of the ⌈total/n⌉ multiples of n below total
(CPython computes that very length), here List.range' 0 ⌈total/n⌉ n.  The
chunk at i is pages[i:min(i+n, total)], i.e. take n of drop i, and the
default name is parte_{(i//n)+1}.pdf. -/
def fixasLoop (n : Nat) (usarIa : Bool) (ext : List Nat → DadosASO)
    (paginas : List Nat) : List (String × List Nat) :=
  (List.range' 0 ((paginas.length + n - 1) / n) n).map (fun i =>
    let pedaco := (paginas.drop i).take n
    (nomeUnidade usarIa ext pedaco ("parte_" ++ toString (i / n + 1) ++ ".pdf"), pedaco))

/-- Lines 140-166, mode "intervalo_personalizado": each entry is parsed with
int over split('-'); a parse failure (ValueError) skips the entry with a
warning; a parsed (inicio, fim) is emitted only when
1 <= inicio <= fim <= total; the fragment is pages[inicio-1:fim]. -/
def intervalosLoop (paginas : List Nat) (usarIa : Bool) (ext : List Nat → DadosASO) :
    List String → List (String × List Nat)
  | [] => []
  | iv :: ivs =>
      match parseIntervalo iv with
      | some (inicio, fim) =>
          if 1 ≤ inicio ∧ inicio ≤ fim ∧ fim ≤ (paginas.length : Int) then
            let pedaco := (paginas.drop (inicio.toNat - 1)).take (fim.toNat - (inicio.toNat - 1))
            let nome := nomeUnidade usarIa ext pedaco
              ("intervalo_" ++ toString inicio ++ "_a_" ++ toString fim ++ ".pdf")
            (nome, pedaco) :: intervalosLoop paginas usarIa ext ivs
          else intervalosLoop paginas usarIa ext ivs
      | none => intervalosLoop paginas usarIa ext ivs

/-- Lines 168-187, mode "paginas_individuais": `for i in range(total_paginas)`,
one single-page fragment pages[i] per page, default name pagina_{i+1}.pdf. -/
def individuaisLoop (usarIa : Bool) (ext : List Nat → DadosASO)
    (paginas : List Nat) : List (String × List Nat) :=
  (List.range paginas.length).map (fun i =>
    let pagina := [paginas.getD i 0]
    (nomeUnidade usarIa ext pagina ("pagina_" ++ toString (i + 1) ++ ".pdf"), pagina))

/-- Lines 189-214, mode "extrair_paginas": each entry is parsed with int
(failure skips it with a warning); an in-range number emits the single page
pages[num-1] with default name pagina_{num}.pdf; out-of-range numbers are
silently skipped. -/
def extrairLoop (paginas : List Nat) (usarIa : Bool) (ext : List Nat → DadosASO) :
    List String → List (String × List Nat)
  | [] => []
  | p :: ps =>
      match pyInt p with
      | some num =>
          if 1 ≤ num ∧ num ≤ (paginas.length : Int) then
            let pagina := [paginas.getD (num.toNat - 1) 0]
            (nomeUnidade usarIa ext pagina ("pagina_" ++ toString num ++ ".pdf"), pagina)
              :: extrairLoop paginas usarIa ext ps
          else extrairLoop paginas usarIa ext ps
      | none => extrairLoop paginas usarIa ext ps

/-- The partition specification of dividir_pdf (the opcoes_divisao dict). -/
inductive OpcoesDivisao
  | paginas_fixas (paginasPorArquivo : Nat)
  | intervalo_personalizado (intervalos : List String)
  | paginas_individuais
  | extrair_paginas (paginas : List String)

/-- Embedding of dividir_pdf (src/app.py:105-219).  `arquivo` is the PyPDF2
parse of the input bytes: `none` when the bytes cannot be opened as a PDF, in
which case PdfReader raises at line 108 and the except of lines 217-219
returns (False, None) with nothing produced.  In mode paginas_fixas with 0
pages per file, range(0, total, 0) raises ValueError, caught by the same
except. -/
def dividir_pdf (arquivo : Option (List Nat)) (opcoes : OpcoesDivisao) (usarIa : Bool)
    (ext : List Nat → DadosASO) : Bool × Option (List (String × List Nat)) :=
  match arquivo with
  | none => (false, none)
  | some paginas =>
      match opcoes with
      | .paginas_fixas n =>
          if n = 0 then (false, none)
          else (true, some (fixasLoop n usarIa ext paginas))
      | .intervalo_personalizado ivs => (true, some (intervalosLoop paginas usarIa ext ivs))
      | .paginas_individuais => (true, some (individuaisLoop usarIa ext paginas))
      | .extrair_paginas ps => (true, some (extrairLoop paginas usarIa ext ps))

/-- Embedding of the automatic rename-ASOs loop of main (src/app.py:431-445):
for each uploaded file, the extractor is called; only when both fields are
usable is (validar_nome_arquivo("ASO ...") + ".pdf", bytes) appended to the
results; otherwise NOTHING is appended for that file, and the loop continues
with the next one. -/
def renomearAsos (ext : List Nat → DadosASO) : List (List Nat) → List (String × List Nat)
  | [] => []
  | a :: resto =>
      let dados := ext a
      let dataExame := formatar_data dados.data
      match dados.nome with
      | some nomeFuncionario =>
          if nomeFuncionario != "INDEFINIDO" && dataExame != "DDMMYYYY" then
            (validar_nome_arquivo ("ASO " ++ dataExame ++ " " ++ nomeFuncionario) ++ ".pdf", a)
              :: renomearAsos ext resto
          else renomearAsos ext resto
      | none => renomearAsos ext resto

/-! ### Helper lemmas -/

lemma mem_tiraEspacosBordas {c : Char} {l : List Char} (h : c ∈ tiraEspacosBordas l) :
    c ∈ l := by
  unfold tiraEspacosBordas at h
  rw [List.mem_reverse] at h
  have h1 : c ∈ (l.dropWhile (fun x => isPySpace x)).reverse :=
    (List.dropWhile_sublist _).subset h
  rw [List.mem_reverse] at h1
  exact (List.dropWhile_sublist _).subset h1

lemma mem_colapsaEspacosAux {c : Char} :
    ∀ (b : Bool) (l : List Char), c ∈ colapsaEspacosAux b l → c = ' ' ∨ c ∈ l := by
  intro b l
  induction l generalizing b with
  | nil => intro h; simp [colapsaEspacosAux] at h
  | cons a as ih =>
      intro h
      unfold colapsaEspacosAux at h
      by_cases ha : isPySpace a
      · rw [if_pos ha] at h
        rcases b with _ | _
        · simp only [Bool.false_eq_true, if_false, List.mem_cons] at h
          rcases h with h | h
          · exact Or.inl h
          · rcases ih true h with h2 | h2
            · exact Or.inl h2
            · exact Or.inr (List.mem_cons_of_mem _ h2)
        · simp only [if_true] at h
          rcases ih true h with h2 | h2
          · exact Or.inl h2
          · exact Or.inr (List.mem_cons_of_mem _ h2)
      · rw [if_neg ha] at h
        rcases List.mem_cons.mp h with h2 | h2
        · exact Or.inr (h2 ▸ List.mem_cons_self _ _)
        · rcases ih false h2 with h3 | h3
          · exact Or.inl h3
          · exact Or.inr (List.mem_cons_of_mem _ h3)

lemma comprimento_anoDigitos {y : Nat} (hy : 100 ≤ y) :
    (anoDigitos y).length = 3 ∨ (anoDigitos y).length = 4 := by
  unfold anoDigitos
  split_ifs with h1 h2 h3
  · exact absurd hy (by omega)
  · exact absurd hy (by omega)
  · exact Or.inl rfl
  · exact Or.inr rfl

lemma formatar_data_comprimento (s : Option String) :
    (formatar_data s).length = 8 ∨ (formatar_data s).length = 7 := by
  cases s with
  | none => exact Or.inl rfl
  | some t =>
      by_cases ht : t = ""
      · left; simp only [formatar_data, ht, if_pos]; rfl
      · cases h : tentaFormatos formatos_possiveis (trocaTracoPorBarra t.data) with
        | none =>
            left
            simp only [formatar_data, ht, if_neg, h]
            rfl
        | some tm =>
            have base : formatar_data (some t) =
                String.mk (doisDigitos tm.d ++ doisDigitos tm.m ++
                  anoDigitos (if tm.y < 100 then tm.y + 2000 else tm.y)) := by
              simp [formatar_data, ht, h]
            rw [base]
            have hy100 : 100 ≤ (if tm.y < 100 then tm.y + 2000 else tm.y) := by
              split <;> omega
            rcases comprimento_anoDigitos hy100 with h3 | h4
            · right
              simp [String.length_mk, doisDigitos, h3]
            · left
              simp [String.length_mk, doisDigitos, h4]

/-! ### Claims about the filename sanitizer and the date normalizer -/

set_option maxRecDepth 8000 in
/-- C8: for every input string the sanitizer is total, its result carries
none of the characters < > : " / \ | ? * and at most 240 characters; on the
concrete inputs: 'A:B/C*D' becomes "ABCD", 300 'A's are truncated to 240,
the empty string stays empty, and whitespace runs are collapsed and
trimmed. -/
theorem c8_validar_nome_arquivo (s : String) :
    (validar_nome_arquivo s).length ≤ 240
    ∧ (∀ c, c ∈ (validar_nome_arquivo s).data → ¬ c ∈ caracteresIlegais)
    ∧ validar_nome_arquivo ("A:B/C*D") = "ABCD"
    ∧ validar_nome_arquivo (String.mk (List.replicate 300 'A')) =
        String.mk (List.replicate 240 'A')
    ∧ validar_nome_arquivo ("") = ""
    ∧ validar_nome_arquivo ("  um   nome  ") = "um nome" := by
  refine ⟨?_, ?_, by decide, ?_, by decide, by decide⟩
  · unfold validar_nome_arquivo
    rw [String.length_mk, List.length_take]
    exact min_le_left _ _
  · intro c hc
    unfold validar_nome_arquivo at hc
    simp only [String.mk] at hc
    have h1 := List.mem_of_mem_take hc
    have h2 := mem_tiraEspacosBordas h1
    rcases mem_colapsaEspacosAux false _ h2 with h3 | h3
    · subst h3; decide
    · have := List.of_mem_filter h3
      simpa using this
  · decide

/-- C3: the date normalizer evaluated on the three round-trip inputs of the
claim.  The slash and two-digit-dash inputs do normalize to "05032024", but
"2024-03-05" yields the failure sentinel: line 78 replaces every '-' with '/'
before any format is tried, so the '%Y-%m-%d' entry of the format list can
never match, and "2024/03/05" fits none of the remaining formats. -/
theorem c3_normalizar_tres_entradas :
    formatar_data (some ("05/03/2024")) = "05032024"
    ∧ formatar_data (some ("5-3-24")) = "05032024"
    ∧ formatar_data (some ("2024-03-05")) = "DDMMYYYY" := by
  exact ⟨by decide, by decide, by decide⟩

/-- C4 counterexample: "05/03/99" parses, yet its two-digit year is mapped to
1999 (the 1900s), not to the 2000s as the claim states; and "01/01/0500"
parses to a 7-character result, not an 8-character one. -/
theorem c4_contraexemplo :
    formatar_data (some ("05/03/99")) = "05031999"
    ∧ "05031999" ≠ "05032099"
    ∧ formatar_data (some ("01/01/0500")) = "0101500"
    ∧ ¬ (formatar_data (some ("01/01/0500"))).length = 8 := by
  exact ⟨by decide, by decide, by decide, by decide⟩

/-- C4 (amended): the normalizer is total and never fails; absent, empty or
unparseable input yields the sentinel "DDMMYYYY"; a successful parse yields
day(2) + month(2) + year digits, where two-digit years up to 68 are mapped
to 2000-2068 and 69-99 to 1969-1999; the result has 8 characters except when
a four-digit year between 100 and 999 was parsed, in which case the
unpadded year yields 7. -/
theorem c4_normalizador_total (s : Option String) :
    ((formatar_data s).length = 8 ∨ (formatar_data s).length = 7)
    ∧ formatar_data none = "DDMMYYYY"
    ∧ formatar_data (some ("")) = "DDMMYYYY"
    ∧ formatar_data (some ("not a date")) = "DDMMYYYY"
    ∧ formatar_data (some ("05/03/24")) = "05032024"
    ∧ formatar_data (some ("05/03/68")) = "05032068"
    ∧ formatar_data (some ("05/03/69")) = "05031969"
    ∧ formatar_data (some ("05/03/99")) = "05031999"
    ∧ formatar_data (some ("01/01/0500")) = "0101500" := by
  exact ⟨formatar_data_comprimento s, by decide, by decide, by decide, by decide,
    by decide, by decide, by decide, by decide⟩

/-! ### Chunking lemmas for the fixed-size mode -/

lemma passo_teto (L n : Nat) (hn : 0 < n) (hL : 0 < L) :
    (L + n - 1) / n = ((L - n) + n - 1) / n + 1 := by
  rcases le_or_lt n L with h | h
  · have e : L + n - 1 = ((L - n) + n - 1) + n := by omega
    rw [e, Nat.add_div_right _ hn]
  · have e1 : L - n = 0 := by omega
    rw [e1]
    rw [Nat.div_eq_of_lt (by omega : 0 + n - 1 < n)]
    have e2 : L + n - 1 = (L - 1) + n := by omega
    rw [e2, Nat.add_div_right _ hn, Nat.div_eq_of_lt (by omega : L - 1 < n)]

lemma mapa_range_desloca (n : Nat) (l : List Nat) :
    ∀ (m s : Nat), (List.range' (s + n) m n).map (fun i => (l.drop i).take n)
      = (List.range' s m n).map (fun i => ((l.drop n).drop i).take n) := by
  intro m
  induction m with
  | zero => intro s; rfl
  | succ m ih =>
      intro s
      rw [List.range'_succ, List.range'_succ]
      simp only [List.map_cons]
      refine congrArg₂ List.cons ?_ ?_
      · rw [List.drop_drop]
        rw [Nat.add_comm n s]
      · exact ih (s + n)

lemma juncao_fixas (n : Nat) (hn : 0 < n) :
    ∀ (L : Nat) (l : List Nat), l.length ≤ L →
      ((List.range' 0 ((l.length + n - 1) / n) n).map
        (fun i => (l.drop i).take n)).flatten = l := by
  intro L
  induction L with
  | zero =>
      intro l hl
      have hnil : l = [] := List.length_eq_zero.mp (Nat.le_zero.mp hl)
      subst hnil
      simp [Nat.div_eq_of_lt (by omega : 0 + n - 1 < n)]
  | succ L ih =>
      intro l hl
      cases l with
      | nil => simp [Nat.div_eq_of_lt (by omega : 0 + n - 1 < n)]
      | cons p ps =>
          rw [passo_teto (p :: ps).length n hn (by simp)]
          rw [List.range'_succ]
          simp only [List.map_cons, List.flatten_cons, List.drop_zero, Nat.zero_add]
          have hshift := mapa_range_desloca n (p :: ps)
            (((p :: ps).length - n + n - 1) / n) 0
          rw [Nat.zero_add] at hshift
          rw [hshift]
          have hdl : ((p :: ps).drop n).length = (p :: ps).length - n := by
            rw [List.length_drop]
          have hrec := ih ((p :: ps).drop n) (by rw [hdl]; simp at hl ⊢; omega)
          rw [hdl] at hrec
          rw [hrec]
          exact List.take_append_drop n (p :: ps)

lemma getD_map_geral {α β : Type} (f : α → β) (d : α) (e : β) :
    ∀ (l : List α) (k : Nat), k < l.length → (l.map f).getD k e = f (l.getD k d) := by
  intro l
  induction l with
  | nil => intro k h; simp at h
  | cons a as ih =>
      intro k h
      cases k with
      | zero => rfl
      | succ k =>
          simp only [List.map_cons, List.getD_cons_succ]
          exact ih k (by simpa using h)

/-- C1: for every document and every positive chunk size n, fixed-size
segmentation succeeds and produces exactly ⌈p/n⌉ outputs whose fragments
concatenate back to the source (hence in original order), whose page counts
sum to p and are each at most n, with every chunk but the last of size
exactly n; for any naming mode and extractor. -/
theorem c1_paginas_fixas (paginas : List Nat) (n : Nat) (hn : 0 < n) (usarIa : Bool)
    (ext : List Nat → DadosASO) :
    ∃ outs, dividir_pdf (some paginas) (.paginas_fixas n) usarIa ext = (true, some outs)
      ∧ outs.length = (paginas.length + n - 1) / n
      ∧ (outs.map (fun u => u.2)).flatten = paginas
      ∧ (outs.map (fun u => u.2.length)).sum = paginas.length
      ∧ (∀ u ∈ outs, u.2.length ≤ n)
      ∧ (∀ k, k + 1 < outs.length → ((outs.getD k ("", [])).2).length = n) := by
  refine ⟨fixasLoop n usarIa ext paginas, ?_, ?_, ?_, ?_, ?_, ?_⟩
  · simp [dividir_pdf, Nat.pos_iff_ne_zero.mp hn]
  · simp [fixasLoop]
  · have hj := juncao_fixas n hn paginas.length paginas le_rfl
    unfold fixasLoop
    rw [List.map_map]
    exact hj
  · have hj := juncao_fixas n hn paginas.length paginas le_rfl
    unfold fixasLoop
    have : ((List.range' 0 ((paginas.length + n - 1) / n) n).map
        (fun i => (paginas.drop i).take n)).flatten.length = paginas.length := by
      rw [hj]
    rw [List.length_flatten, List.map_map] at this
    rw [List.map_map]
    exact this
  · intro u hu
    unfold fixasLoop at hu
    rcases List.mem_map.mp hu with ⟨i, _, hgu⟩
    rw [← hgu]
    simp only [List.length_take]
    exact min_le_left _ _
  · intro k hk
    unfold fixasLoop at hk ⊢
    rw [List.length_map, List.length_range'] at hk
    have hklt : k < (List.range' 0 ((paginas.length + n - 1) / n) n).length := by
      rw [List.length_range']; omega
    rw [getD_map_geral _ 0 _ _ _ hklt]
    have hget : (List.range' 0 ((paginas.length + n - 1) / n) n).getD k 0 = n * k := by
      rw [List.getD_eq_getElem _ _ hklt, List.getElem_range']
      omega
    rw [hget]
    simp only [List.length_take, List.length_drop]
    have hdiv : k + 2 ≤ (paginas.length + n - 1) / n := hk
    rw [Nat.le_div_iff_mul_le hn] at hdiv
    have hexp : (k + 2) * n = n * k + n + n := by ring
    rw [hexp] at hdiv
    omega

/-- C1 witness: a 7-page source split in chunks of 3 (⌈7/3⌉ = 3 outputs). -/
theorem c1_paginas_fixas_testemunha :
    0 < 3 ∧
    ∃ outs, dividir_pdf (some [1,2,3,4,5,6,7]) (.paginas_fixas 3) false (fun _ => dadosFalha)
        = (true, some outs)
      ∧ outs.length = (([1,2,3,4,5,6,7] : List Nat).length + 3 - 1) / 3
      ∧ (outs.map (fun u => u.2)).flatten = [1,2,3,4,5,6,7]
      ∧ (outs.map (fun u => u.2.length)).sum = ([1,2,3,4,5,6,7] : List Nat).length
      ∧ (∀ u ∈ outs, u.2.length ≤ 3)
      ∧ (∀ k, k + 1 < outs.length → ((outs.getD k ("", [])).2).length = 3) :=
  ⟨by decide, c1_paginas_fixas [1,2,3,4,5,6,7] 3 (by decide) false (fun _ => dadosFalha)⟩

/-! ### Custom ranges -/

/-- The statement-side view of one range entry: the (start, end) pair in Nat
when the entry parses and lies in 1 ≤ start ≤ end ≤ total, else nothing. -/
def intervaloValido (total : Nat) (s : String) : Option (Nat × Nat) :=
  match parseIntervalo s with
  | some (i, f) =>
      if 1 ≤ i ∧ i ≤ f ∧ f ≤ (total : Int) then some (i.toNat, f.toNat) else none
  | none => none

lemma intervaloValido_limites {total : Nat} {s : String} {q : Nat × Nat}
    (h : intervaloValido total s = some q) : 1 ≤ q.1 ∧ q.1 ≤ q.2 ∧ q.2 ≤ total := by
  unfold intervaloValido at h
  cases hp : parseIntervalo s with
  | none => rw [hp] at h; cases h
  | some p =>
      rw [hp] at h
      obtain ⟨i, f⟩ := p
      dsimp only at h
      by_cases hc : 1 ≤ i ∧ i ≤ f ∧ f ≤ (total : Int)
      · rw [if_pos hc] at h
        cases h
        obtain ⟨hc1, hc2, hc3⟩ := hc
        refine ⟨?_, ?_, ?_⟩ <;> omega
      · rw [if_neg hc] at h; cases h

lemma intervalosLoop_fatias (paginas : List Nat) (usarIa : Bool)
    (ext : List Nat → DadosASO) :
    ∀ ivs, (intervalosLoop paginas usarIa ext ivs).map (fun u => u.2)
      = (ivs.filterMap (intervaloValido paginas.length)).map
          (fun q => (paginas.drop (q.1 - 1)).take (q.2 - q.1 + 1)) := by
  intro ivs
  induction ivs with
  | nil => rfl
  | cons iv ivs ih =>
      rw [List.filterMap_cons]
      unfold intervalosLoop intervaloValido
      cases hp : parseIntervalo iv with
      | none => exact ih
      | some p =>
          obtain ⟨i, f⟩ := p
          dsimp only
          by_cases hc : 1 ≤ i ∧ i ≤ f ∧ f ≤ (paginas.length : Int)
          · rw [if_pos hc, if_pos hc]
            simp only [List.map_cons]
            refine congrArg₂ List.cons ?_ ih
            have he : f.toNat - (i.toNat - 1) = f.toNat - i.toNat + 1 := by
              obtain ⟨hc1, hc2, hc3⟩ := hc
              omega
            rw [he]
          · rw [if_neg hc, if_neg hc]
            exact ih

lemma fatia_conteudo (paginas : List Nat) (i f : Nat) (h1 : 1 ≤ i) (h2 : i ≤ f)
    (h3 : f ≤ paginas.length) :
    ((paginas.drop (i - 1)).take (f - i + 1)).length = f - i + 1
    ∧ ∀ j, j < f - i + 1 →
        ((paginas.drop (i - 1)).take (f - i + 1)).getD j 0 = paginas.getD (i - 1 + j) 0 := by
  constructor
  · rw [List.length_take, List.length_drop]; omega
  · intro j hj
    rw [List.getD_eq_getElem?_getD, List.getD_eq_getElem?_getD]
    rw [List.getElem?_take, if_pos hj, List.getElem?_drop]

/-- C2: for every source document and list of range entries, custom-range
segmentation succeeds, and the fragments it emits are exactly, in input
order, the slices of the valid entries (start, end with
1 ≤ start ≤ end ≤ total); each such slice has end − start + 1 pages and its
j-th page is page start-1+j of the source; invalid or unparseable entries
contribute nothing and do not abort the batch. -/
theorem c2_intervalo_personalizado (paginas : List Nat) (ivs : List String)
    (usarIa : Bool) (ext : List Nat → DadosASO) :
    ∃ outs, dividir_pdf (some paginas) (.intervalo_personalizado ivs) usarIa ext
        = (true, some outs)
      ∧ outs.map (fun u => u.2) = (ivs.filterMap (intervaloValido paginas.length)).map
          (fun q => (paginas.drop (q.1 - 1)).take (q.2 - q.1 + 1))
      ∧ ∀ q ∈ ivs.filterMap (intervaloValido paginas.length),
          ((paginas.drop (q.1 - 1)).take (q.2 - q.1 + 1)).length = q.2 - q.1 + 1
          ∧ ∀ j, j < q.2 - q.1 + 1 →
              ((paginas.drop (q.1 - 1)).take (q.2 - q.1 + 1)).getD j 0
                = paginas.getD (q.1 - 1 + j) 0 := by
  refine ⟨intervalosLoop paginas usarIa ext ivs, rfl,
    intervalosLoop_fatias paginas usarIa ext ivs, ?_⟩
  intro q hq
  rcases List.mem_filterMap.mp hq with ⟨s, _, hs⟩
  obtain ⟨h1, h2, h3⟩ := intervaloValido_limites hs
  exact fatia_conteudo paginas q.1 q.2 h1 h2 h3

/-! ### Explicit pages -/

/-- The statement-side view of one page entry: its parsed number (in Nat)
when it is in 1..total, else nothing. -/
def paginaValida (total : Nat) (s : String) : Option Nat :=
  match pyInt s with
  | some k => if 1 ≤ k ∧ k ≤ (total : Int) then some k.toNat else none
  | none => none

lemma extrairLoop_fatias (paginas : List Nat) (usarIa : Bool)
    (ext : List Nat → DadosASO) :
    ∀ ps, (extrairLoop paginas usarIa ext ps).map (fun u => u.2)
      = (ps.filterMap (paginaValida paginas.length)).map
          (fun k => [paginas.getD (k - 1) 0]) := by
  intro ps
  induction ps with
  | nil => rfl
  | cons p ps ih =>
      rw [List.filterMap_cons]
      unfold extrairLoop paginaValida
      cases hp : pyInt p with
      | none => exact ih
      | some num =>
          dsimp only
          by_cases hc : 1 ≤ num ∧ num ≤ (paginas.length : Int)
          · rw [if_pos hc, if_pos hc]
            simp only [List.map_cons]
            exact congrArg₂ List.cons rfl ih
          · rw [if_neg hc, if_neg hc]
            exact ih

/-- C10: explicit-page extraction succeeds and emits, in input order and
without deduplication, one single-page fragment per in-range entry — the
page the entry names — so k occurrences of the same valid number give k
identical outputs; out-of-range or unparseable entries contribute nothing
and do not abort the batch. -/
theorem c10_extrair_paginas (paginas : List Nat) (ps : List String) (usarIa : Bool)
    (ext : List Nat → DadosASO) :
    ∃ outs, dividir_pdf (some paginas) (.extrair_paginas ps) usarIa ext = (true, some outs)
      ∧ outs.map (fun u => u.2) = (ps.filterMap (paginaValida paginas.length)).map
          (fun k => [paginas.getD (k - 1) 0])
      ∧ outs.length = (ps.filterMap (paginaValida paginas.length)).length := by
  refine ⟨extrairLoop paginas usarIa ext ps, rfl, extrairLoop_fatias paginas usarIa ext ps, ?_⟩
  have h := congrArg List.length (extrairLoop_fatias paginas usarIa ext ps)
  rwa [List.length_map, List.length_map] at h

/-! ### Naming lemmas -/

lemma nomeUnidade_recuo (ext : List Nat → DadosASO) (unidade : List Nat) (padrao : String)
    (h : (ext unidade).nome = none ∨ (ext unidade).nome = some "INDEFINIDO"
      ∨ formatar_data (ext unidade).data = "DDMMYYYY") :
    nomeUnidade true ext unidade padrao = padrao := by
  unfold nomeUnidade
  rw [if_pos rfl]
  dsimp only
  cases hnome : (ext unidade).nome with
  | none => rfl
  | some nf =>
      dsimp only
      rcases h with h | h | h
      · rw [hnome] at h; cases h
      · rw [hnome] at h
        have hnf : nf = "INDEFINIDO" := by injection h
        subst hnf
        simp
      · simp [h]

lemma nomeUnidade_aso (ext : List Nat → DadosASO) (unidade : List Nat) (padrao : String)
    (nf : String) (h1 : (ext unidade).nome = some nf) (h2 : nf ≠ "INDEFINIDO")
    (h3 : formatar_data (ext unidade).data ≠ "DDMMYYYY") :
    nomeUnidade true ext unidade padrao
      = "ASO " ++ formatar_data (ext unidade).data ++ " " ++ nf ++ ".pdf" := by
  unfold nomeUnidade
  rw [if_pos rfl]
  dsimp only
  rw [h1]
  dsimp only
  simp [h2, h3]

lemma fixasLoop_elemento (paginas : List Nat) (n : Nat) (hn : 0 < n) (usarIa : Bool)
    (ext : List Nat → DadosASO) (k : Nat)
    (hk : k < (fixasLoop n usarIa ext paginas).length) :
    (fixasLoop n usarIa ext paginas).getD k ("", [])
      = (nomeUnidade usarIa ext ((paginas.drop (n * k)).take n)
          ("parte_" ++ toString (k + 1) ++ ".pdf"),
         (paginas.drop (n * k)).take n) := by
  unfold fixasLoop at hk ⊢
  rw [List.length_map] at hk
  rw [getD_map_geral _ 0 _ _ _ hk]
  have hget : (List.range' 0 ((paginas.length + n - 1) / n) n).getD k 0 = n * k := by
    rw [List.getD_eq_getElem _ _ hk, List.getElem_range']
    omega
  rw [hget]
  dsimp only
  rw [Nat.mul_div_cancel_left k hn]

/-- A fixed extractor modelling an external call that always fails: the
dictionary of lines 55-57 for every unit. -/
def extratorFalho : List Nat → DadosASO := fun _ => dadosFalha

/-- C5: under AI naming in fixed-size mode, the k-th output's name is the
positional default parte_{k+1}.pdf whenever the extractor's employee name is
absent or the sentinel, or the exam date normalizes to the failure sentinel;
when both fields are usable the name is "ASO " + date + " " + name + ".pdf";
and in every mode an unusable extraction makes nomeUnidade return the
positional default it was handed. -/
theorem c5_recuo_posicional (paginas : List Nat) (n : Nat) (hn : 0 < n)
    (ext : List Nat → DadosASO) (outs : List (String × List Nat)) (k : Nat)
    (houts : dividir_pdf (some paginas) (.paginas_fixas n) true ext = (true, some outs))
    (hk : k < outs.length) :
    (((ext (outs.getD k ("", [])).2).nome = none
        ∨ (ext (outs.getD k ("", [])).2).nome = some "INDEFINIDO"
        ∨ formatar_data (ext (outs.getD k ("", [])).2).data = "DDMMYYYY") →
      (outs.getD k ("", [])).1 = "parte_" ++ toString (k + 1) ++ ".pdf")
    ∧ (∀ nf, (ext (outs.getD k ("", [])).2).nome = some nf → nf ≠ "INDEFINIDO" →
        formatar_data (ext (outs.getD k ("", [])).2).data ≠ "DDMMYYYY" →
        (outs.getD k ("", [])).1
          = "ASO " ++ formatar_data (ext (outs.getD k ("", [])).2).data ++ " " ++ nf ++ ".pdf")
    ∧ (∀ unidade padrao, ((ext unidade).nome = none ∨ (ext unidade).nome = some "INDEFINIDO"
        ∨ formatar_data (ext unidade).data = "DDMMYYYY") →
        nomeUnidade true ext unidade padrao = padrao) := by
  have houts' : fixasLoop n true ext paginas = outs := by
    unfold dividir_pdf at houts
    dsimp only at houts
    rw [if_neg (by omega : ¬ n = 0)] at houts
    have h2 := (Prod.mk.injEq _ _ _ _).mp houts
    exact Option.some.inj h2.2
  subst houts'
  have hE := fixasLoop_elemento paginas n hn true ext k hk
  rw [hE]
  refine ⟨?_, ?_, ?_⟩
  · intro hfail
    exact nomeUnidade_recuo ext _ _ hfail
  · intro nf h1 h2 h3
    exact nomeUnidade_aso ext _ _ nf h1 h2 h3
  · intro unidade padrao hfail
    exact nomeUnidade_recuo ext unidade padrao hfail

/-- C5 witness: a two-page document in chunks of one with an always-failing
extractor; the first unit gets the positional default. -/
theorem c5_recuo_posicional_testemunha :
    0 < 1
    ∧ dividir_pdf (some [5, 6]) (.paginas_fixas 1) true extratorFalho
        = (true, some [("parte_1.pdf", [5]), ("parte_2.pdf", [6])])
    ∧ 0 < ([("parte_1.pdf", [5]), ("parte_2.pdf", [6])] : List (String × List Nat)).length
    ∧ (((extratorFalho (([("parte_1.pdf", [5]), ("parte_2.pdf", [6])]
            : List (String × List Nat)).getD 0 ("", [])).2).nome = none
        ∨ (extratorFalho (([("parte_1.pdf", [5]), ("parte_2.pdf", [6])]
            : List (String × List Nat)).getD 0 ("", [])).2).nome = some "INDEFINIDO"
        ∨ formatar_data (extratorFalho (([("parte_1.pdf", [5]), ("parte_2.pdf", [6])]
            : List (String × List Nat)).getD 0 ("", [])).2).data = "DDMMYYYY") →
      (([("parte_1.pdf", [5]), ("parte_2.pdf", [6])]
          : List (String × List Nat)).getD 0 ("", [])).1
        = "parte_" ++ toString (0 + 1) ++ ".pdf")
    ∧ (∀ nf, (extratorFalho (([("parte_1.pdf", [5]), ("parte_2.pdf", [6])]
            : List (String × List Nat)).getD 0 ("", [])).2).nome = some nf →
        nf ≠ "INDEFINIDO" →
        formatar_data (extratorFalho (([("parte_1.pdf", [5]), ("parte_2.pdf", [6])]
            : List (String × List Nat)).getD 0 ("", [])).2).data ≠ "DDMMYYYY" →
        (([("parte_1.pdf", [5]), ("parte_2.pdf", [6])]
            : List (String × List Nat)).getD 0 ("", [])).1
          = "ASO " ++ formatar_data (extratorFalho (([("parte_1.pdf", [5]),
              ("parte_2.pdf", [6])] : List (String × List Nat)).getD 0 ("", [])).2).data
            ++ " " ++ nf ++ ".pdf")
    ∧ (∀ unidade padrao, ((extratorFalho unidade).nome = none
        ∨ (extratorFalho unidade).nome = some "INDEFINIDO"
        ∨ formatar_data (extratorFalho unidade).data = "DDMMYYYY") →
        nomeUnidade true extratorFalho unidade padrao = padrao) :=
  ⟨by decide, by decide, by decide,
    c5_recuo_posicional [5, 6] 1 (by decide) extratorFalho
      [("parte_1.pdf", [5]), ("parte_2.pdf", [6])] 0 (by decide) (by decide)⟩

/-- C6 counterexample: in the rename-ASOs batch of main, a unit whose
external extraction fails (both fields None, the dictionary of lines 55-57)
is dropped: with a single uploaded file and a failing call the result list
is empty, so the failing unit does not appear in the output sequence. -/
theorem c6_contraexemplo :
    renomearAsos extratorFalho [[1, 2]] = [] := by decide

/-- C6 (amended): a failing external call is confined to its unit and the
batch continues, but the two pipelines differ: in the split pipeline the
failing unit keeps its place — the output count is unchanged and the unit
carries the positional default name — while in the rename-ASOs batch the
failing unit is dropped from the results and the remaining files are still
processed. -/
theorem c6_falha_por_unidade (paginas : List Nat) (n : Nat) (hn : 0 < n)
    (ext : List Nat → DadosASO) (outs : List (String × List Nat)) (k : Nat)
    (houts : dividir_pdf (some paginas) (.paginas_fixas n) true ext = (true, some outs))
    (hk : k < outs.length)
    (hfalha : ext (outs.getD k ("", [])).2 = dadosFalha) :
    outs.length = (paginas.length + n - 1) / n
    ∧ (outs.getD k ("", [])).1 = "parte_" ++ toString (k + 1) ++ ".pdf"
    ∧ (∀ (a : List Nat) (resto : List (List Nat)), ext a = dadosFalha →
        renomearAsos ext (a :: resto) = renomearAsos ext resto) := by
  have houts' : fixasLoop n true ext paginas = outs := by
    unfold dividir_pdf at houts
    dsimp only at houts
    rw [if_neg (by omega : ¬ n = 0)] at houts
    have h2 := (Prod.mk.injEq _ _ _ _).mp houts
    exact Option.some.inj h2.2
  subst houts'
  have hE := fixasLoop_elemento paginas n hn true ext k hk
  refine ⟨?_, ?_, ?_⟩
  · unfold fixasLoop
    rw [List.length_map, List.length_range']
  · rw [hE]
    rw [hE] at hfalha
    refine nomeUnidade_recuo ext _ _ (Or.inl ?_)
    rw [hfalha]
    rfl
  · intro a resto hfa
    simp only [renomearAsos]
    rw [hfa]
    rfl

/-- C6 witness: two single-page units with an always-failing extractor; the
first unit keeps its place with the default name in the split pipeline, and
the rename loop drops a failing head while processing the rest. -/
theorem c6_falha_por_unidade_testemunha :
    0 < 1
    ∧ dividir_pdf (some [1, 2]) (.paginas_fixas 1) true extratorFalho
        = (true, some [("parte_1.pdf", [1]), ("parte_2.pdf", [2])])
    ∧ 0 < ([("parte_1.pdf", [1]), ("parte_2.pdf", [2])] : List (String × List Nat)).length
    ∧ extratorFalho (([("parte_1.pdf", [1]), ("parte_2.pdf", [2])]
        : List (String × List Nat)).getD 0 ("", [])).2 = dadosFalha
    ∧ (([("parte_1.pdf", [1]), ("parte_2.pdf", [2])]
        : List (String × List Nat)).length = (([1, 2] : List Nat).length + 1 - 1) / 1
      ∧ (([("parte_1.pdf", [1]), ("parte_2.pdf", [2])]
          : List (String × List Nat)).getD 0 ("", [])).1
          = "parte_" ++ toString (0 + 1) ++ ".pdf"
      ∧ (∀ (a : List Nat) (resto : List (List Nat)), extratorFalho a = dadosFalha →
          renomearAsos extratorFalho (a :: resto) = renomearAsos extratorFalho resto)) :=
  ⟨by decide, by decide, by decide, rfl,
    c6_falha_por_unidade [1, 2] 1 (by decide) extratorFalho
      [("parte_1.pdf", [1]), ("parte_2.pdf", [2])] 0 (by decide) (by decide) rfl⟩

/-- An extractor whose employee-name field carries a filesystem-illegal
character, as the external service is free to return. -/
def extratorBarra : List Nat → DadosASO := fun _ => ⟨some ("A/B"), some ("05/03/2024")⟩

/-- C7 counterexample: splitting with AI naming attaches the composed name
"ASO 05032024 A/B.pdf" to the output unit as-is; it contains '/', one of
the forbidden characters, and the sanitizer would have altered it — so the
name attached to this OutputUnit is not sanitized. -/
theorem c7_contraexemplo :
    dividir_pdf (some [7]) (.paginas_fixas 1) true extratorBarra
      = (true, some [("ASO 05032024 A/B.pdf", [7])])
    ∧ '/' ∈ ("ASO 05032024 A/B.pdf").data
    ∧ validar_nome_arquivo ("ASO 05032024 A/B.pdf") ≠ "ASO 05032024 A/B.pdf" := by
  exact ⟨by decide, by decide, by decide⟩

lemma nomeUnidade_sufixo (usarIa : Bool) (ext : List Nat → DadosASO) (unidade : List Nat)
    (padrao base : String) (h : padrao = base ++ ".pdf") :
    ∃ b, nomeUnidade usarIa ext unidade padrao = b ++ ".pdf" := by
  unfold nomeUnidade
  by_cases hia : usarIa
  · rw [if_pos hia]
    dsimp only
    cases (ext unidade).nome with
    | none => exact ⟨base, h⟩
    | some nf =>
        dsimp only
        by_cases hc : (nf != "INDEFINIDO"
            && formatar_data (ext unidade).data != "DDMMYYYY") = true
        · rw [if_pos hc]
          exact ⟨"ASO " ++ formatar_data (ext unidade).data ++ " " ++ nf, rfl⟩
        · rw [if_neg hc]
          exact ⟨base, h⟩
  · rw [if_neg hia]
    exact ⟨base, h⟩

lemma intervalosLoop_sufixo (paginas : List Nat) (usarIa : Bool)
    (ext : List Nat → DadosASO) :
    ∀ ivs, ∀ u ∈ intervalosLoop paginas usarIa ext ivs, ∃ b, u.1 = b ++ ".pdf" := by
  intro ivs
  induction ivs with
  | nil => intro u hu; cases hu
  | cons iv ivs ih =>
      intro u hu
      unfold intervalosLoop at hu
      cases hp : parseIntervalo iv with
      | none => rw [hp] at hu; exact ih u hu
      | some p =>
          obtain ⟨i, f⟩ := p
          rw [hp] at hu
          dsimp only at hu
          by_cases hc : 1 ≤ i ∧ i ≤ f ∧ f ≤ (paginas.length : Int)
          · rw [if_pos hc] at hu
            rcases List.mem_cons.mp hu with hu1 | hu2
            · subst hu1
              exact nomeUnidade_sufixo usarIa ext _ _
                ("intervalo_" ++ toString i ++ "_a_" ++ toString f) rfl
            · exact ih u hu2
          · rw [if_neg hc] at hu
            exact ih u hu

lemma extrairLoop_sufixo (paginas : List Nat) (usarIa : Bool)
    (ext : List Nat → DadosASO) :
    ∀ ps, ∀ u ∈ extrairLoop paginas usarIa ext ps, ∃ b, u.1 = b ++ ".pdf" := by
  intro ps
  induction ps with
  | nil => intro u hu; cases hu
  | cons p ps ih =>
      intro u hu
      unfold extrairLoop at hu
      cases hp : pyInt p with
      | none => rw [hp] at hu; exact ih u hu
      | some num =>
          rw [hp] at hu
          dsimp only at hu
          by_cases hc : 1 ≤ num ∧ num ≤ (paginas.length : Int)
          · rw [if_pos hc] at hu
            rcases List.mem_cons.mp hu with hu1 | hu2
            · subst hu1
              exact nomeUnidade_sufixo usarIa ext _ _ ("pagina_" ++ toString num) rfl
            · exact ih u hu2
          · rw [if_neg hc] at hu
            exact ih u hu

lemma renomearAsos_sufixo (ext : List Nat → DadosASO) :
    ∀ arquivos, ∀ u ∈ renomearAsos ext arquivos,
      ∃ base, u.1 = validar_nome_arquivo base ++ ".pdf" := by
  intro arquivos
  induction arquivos with
  | nil => intro u hu; cases hu
  | cons a resto ih =>
      intro u hu
      simp only [renomearAsos] at hu
      cases hnome : (ext a).nome with
      | none => rw [hnome] at hu; exact ih u hu
      | some nf =>
          rw [hnome] at hu
          dsimp only at hu
          by_cases hc : (nf != "INDEFINIDO"
              && formatar_data (ext a).data != "DDMMYYYY") = true
          · rw [if_pos hc] at hu
            rcases List.mem_cons.mp hu with hu1 | hu2
            · subst hu1
              exact ⟨"ASO " ++ formatar_data (ext a).data ++ " " ++ nf, rfl⟩
            · exact ih u hu2
          · rw [if_neg hc] at hu
            exact ih u hu

/-- C7 (amended): every resolved name attached to an output unit of the
split pipeline ends in ".pdf", but only the rename-ASOs flow passes its
composed names through the sanitizer — the split pipeline's AI-composed
names are attached unsanitized (see the counterexample), while its
positional defaults are built only from a fixed word, digits and an
underscore. -/
theorem c7_nomes_terminam_pdf :
    (∀ (paginas : List Nat) (opcoes : OpcoesDivisao) (usarIa : Bool)
      (ext : List Nat → DadosASO) (outs : List (String × List Nat)),
      (dividir_pdf (some paginas) opcoes usarIa ext).2 = some outs →
      ∀ u ∈ outs, ∃ base, u.1 = base ++ ".pdf")
    ∧ (∀ (ext : List Nat → DadosASO) (arquivos : List (List Nat)),
      ∀ u ∈ renomearAsos ext arquivos,
        ∃ base, u.1 = validar_nome_arquivo base ++ ".pdf") := by
  constructor
  · intro paginas opcoes usarIa ext outs houts u hu
    cases opcoes with
    | paginas_fixas n =>
        unfold dividir_pdf at houts
        dsimp only at houts
        by_cases hn : n = 0
        · rw [if_pos hn] at houts; cases houts
        · rw [if_neg hn] at houts
          have : fixasLoop n usarIa ext paginas = outs := Option.some.inj houts
          subst this
          unfold fixasLoop at hu
          rcases List.mem_map.mp hu with ⟨i, _, hgu⟩
          subst hgu
          exact nomeUnidade_sufixo usarIa ext _ _
            ("parte_" ++ toString (i / n + 1)) rfl
    | intervalo_personalizado ivs =>
        unfold dividir_pdf at houts
        dsimp only at houts
        have : intervalosLoop paginas usarIa ext ivs = outs := Option.some.inj houts
        subst this
        exact intervalosLoop_sufixo paginas usarIa ext ivs u hu
    | paginas_individuais =>
        unfold dividir_pdf at houts
        dsimp only at houts
        have : individuaisLoop usarIa ext paginas = outs := Option.some.inj houts
        subst this
        unfold individuaisLoop at hu
        rcases List.mem_map.mp hu with ⟨i, _, hgu⟩
        subst hgu
        exact nomeUnidade_sufixo usarIa ext _ _ ("pagina_" ++ toString (i + 1)) rfl
    | extrair_paginas ps =>
        unfold dividir_pdf at houts
        dsimp only at houts
        have : extrairLoop paginas usarIa ext ps = outs := Option.some.inj houts
        subst this
        exact extrairLoop_sufixo paginas usarIa ext ps u hu
  · intro ext arquivos u hu
    exact renomearAsos_sufixo ext arquivos u hu

/-- C9: an input that cannot be opened as a valid source document makes the
split operation report failure with no output units at all — not a partial
list — whatever the partition specification and naming mode. -/
theorem c9_fonte_invalida (opcoes : OpcoesDivisao) (usarIa : Bool)
    (ext : List Nat → DadosASO) :
    dividir_pdf none opcoes usarIa ext = (false, none) := rfl
